import Mathlib

/-!
Verification development for the node-local VolumeManager of a bare-metal
CSI storage driver (package pkg/node).  The reconciliation engine is
embedded shallowly: resource records become Lean structures, the resource
store becomes explicit lists of records passed through each operation, and
fallible store writes become Option/Except-valued functions with explicit
failure-injection parameters.  Status enumerations are Go string constants
(package api/v1); they are reproduced as named String definitions and all
comparisons go through those names.
-/

namespace CSI

namespace apiV1
/-- CSI status constant for a volume being created. -/
def Creating : String := "CREATING"
/-- CSI status constant for a successfully created volume. -/
def Created : String := "CREATED"
/-- CSI status constant for a failed volume or LVG. -/
def Failed : String := "FAILED"
/-- CSI status constant for a volume being removed. -/
def Removing : String := "REMOVING"
/-- CSI status constant for a removed volume. -/
def Removed : String := "REMOVED"
/-- CSI status constant for a published volume. -/
def Published : String := "PUBLISHED"
/-- CSI status constant for a volume being expanded. -/
def Expanding : String := "EXPANDING"
/-- CSI status constant for a resized volume. -/
def Resized : String := "RESIZED"
/-- Drive health constant: healthy drive. -/
def HealthGood : String := "GOOD"
/-- Drive health constant: failed drive. -/
def HealthBad : String := "BAD"
/-- Drive health constant: health cannot be determined (missing hardware). -/
def HealthUnknown : String := "UNKNOWN"
/-- Drive health constant: suspect drive. -/
def HealthSuspect : String := "SUSPECT"
/-- Drive status constant: drive is attached and visible. -/
def DriveStatusOnline : String := "ONLINE"
/-- Drive status constant: drive is no longer visible to inventory. -/
def DriveStatusOffline : String := "OFFLINE"
end apiV1

/-- Fixed requeue delay used by the volume reconciler (package base,
DefaultRequeueForVolume); the spec only requires it to be one fixed
bounded delay, so its concrete magnitude is irrelevant to every claim. -/
def DefaultRequeueForVolume : Nat := 30

/-- Result value returned to the controller runtime by a reconcile handler,
mirroring ctrl.Result with its Requeue flag and RequeueAfter delay. -/
structure CtrlResult where
  Requeue : Bool
  RequeueAfter : Nat
  deriving Repr, DecidableEq

/-- The empty ctrl.Result meaning done, no requeue. -/
def emptyResult : CtrlResult := ⟨false, 0⟩

/-- The requeue result with the default volume delay, as the tests'
expectedResRequeue value. -/
def requeueDefault : CtrlResult := ⟨true, DefaultRequeueForVolume⟩

/-- Volume resource record (api.Volume), the fields the reconciler reads
or writes. -/
structure Volume where
  id : String
  size : Int
  storageClass : String
  location : String
  csiStatus : String
  nodeId : String
  health : String
  deriving Repr, DecidableEq

/-- Modelled from the spec: the resource store's update operation for a
Volume record (k8sClient.UpdateCR; volumemgr.go is not in the sources).
An update succeeds only when a record with the same Id is already stored,
replacing every such record; `failInject` injects the store-side write
failure (version conflict or I/O error) the error-handling rows of the
spec describe. -/
def updateVolumeCR (failInject : Bool) (store : List Volume) (v : Volume) :
    Option (List Volume) :=
  if failInject then none
  else if store.any (fun w => w.id == v.id) then
    some (store.map (fun w => if w.id == v.id then v else w))
  else none

/-- First stored Volume record with the given id, if any (k8sClient.ReadCR). -/
def readVolumeCR (store : List Volume) (id : String) : Option Volume :=
  store.find? (fun w => w.id == id)

/-- Outcome of one prepareVolume call: the ctrl.Result, the returned error
(if any) and the store after the call. -/
structure PrepareOutcome where
  res : CtrlResult
  err : Option String
  store : List Volume
  deriving Repr, DecidableEq

/-- Modelled from the spec: the prepareVolume handler of the volume
reconciler (volumemgr.go is not in the sources).  Per spec section 4.1,
for a Creating volume located on a Drive: run the provisioner's
PrepareVolume (its success is the `provisionerOk` parameter), choose new
status Created on success and Failed on failure, then write the record;
when the record write itself fails the handler returns a requeue result
and an error without changing the stored status. -/
def prepareVolume (provisionerOk : Bool) (updateFail : Bool)
    (store : List Volume) (vol : Volume) : PrepareOutcome :=
  let newStatus := if provisionerOk then apiV1.Created else apiV1.Failed
  match updateVolumeCR updateFail store { vol with csiStatus := newStatus } with
  | none => ⟨⟨true, 0⟩, some "unable to update volume CR", store⟩
  | some store' =>
      ⟨emptyResult, if provisionerOk then none else some "preparing volume failed", store'⟩

/-- Stored CSIStatus of the volume with the given id after an operation. -/
def storedStatus (store : List Volume) (id : String) : Option String :=
  (readVolumeCR store id).map (fun v => v.csiStatus)

/-- Drive resource record (api.Drive), the fields the VolumeManager reads
or writes. -/
structure Drive where
  uuid : String
  serialNumber : String
  size : Int
  nodeId : String
  driveType : String
  status : String
  health : String
  path : String
  isSystem : Bool
  isClean : Bool
  usage : String
  deriving Repr, DecidableEq

/-- LogicalVolumeGroup resource record (api.LogicalVolumeGroup). -/
structure LogicalVolumeGroup where
  name : String
  node : String
  locations : List String
  size : Int
  status : String
  health : String
  volumeRefs : List String
  deriving Repr, DecidableEq

/-- AvailableCapacity resource record (api.AvailableCapacity). -/
structure AvailableCapacity where
  nodeId : String
  storageClass : String
  location : String
  size : Int
  deriving Repr, DecidableEq

/-- The resource store's contents as one value: the durable records the
VolumeManager's handlers read and write. -/
structure ClusterState where
  volumes : List Volume
  lvgs : List LogicalVolumeGroup
  acs : List AvailableCapacity
  drives : List Drive
  deriving Repr, DecidableEq

/-- First stored LogicalVolumeGroup record with the given name
(k8sClient.ReadCR on an LVG). -/
def findLVG (lvgs : List LogicalVolumeGroup) (name : String) :
    Option LogicalVolumeGroup :=
  lvgs.find? (fun g => g.name == name)

/-- Modelled from the spec: the resource store's update operation for an
LVG record (k8sClient.UpdateCR; volumemgr.go is not in the sources), the
same contract as updateVolumeCR. -/
def updateLVGCR (failInject : Bool) (lvgs : List LogicalVolumeGroup)
    (g : LogicalVolumeGroup) : Option (List LogicalVolumeGroup) :=
  if failInject then none
  else if lvgs.any (fun x => x.name == g.name) then
    some (lvgs.map (fun x => if x.name == g.name then g else x))
  else none

/-- Health-propagator sub-step (a): delete the AvailableCapacity record at
the degraded drive's location. -/
def deleteACByLocation (acs : List AvailableCapacity) (loc : String) :
    List AvailableCapacity :=
  acs.filter (fun ac => !(ac.location == loc))

/-- Health-propagator sub-step (b): set the health of every Volume whose
location equals the drive UUID. -/
def setVolumesHealthAt (vols : List Volume) (loc h : String) : List Volume :=
  vols.map (fun v => if v.location == loc then { v with health := h } else v)

/-- Health-propagator sub-step (c): set the health of every LVG whose
locations include the drive UUID. -/
def setLVGsHealthAt (lvgs : List LogicalVolumeGroup) (uuid h : String) :
    List LogicalVolumeGroup :=
  lvgs.map (fun g =>
    if g.locations.contains uuid then { g with health := h } else g)

/-- Modelled from the spec: handleDriveStatusChange, the health propagator
(volumemgr.go is not in the sources).  Spec section 4.3: (a) delete the
AvailableCapacity at the drive's location when health is no longer GOOD,
(b) set the health of every Volume located on the drive, (c) set the
health of every LVG whose locations include the drive; the three sub-steps
are best-effort and independent, so a store failure in one (the three
failure-injection flags) does not stop the others. -/
def handleDriveStatusChange (acFail volFail lvgFail : Bool)
    (st : ClusterState) (d : Drive) : ClusterState :=
  { volumes := if volFail then st.volumes
               else setVolumesHealthAt st.volumes d.uuid d.health,
    lvgs := if lvgFail then st.lvgs
            else setLVGsHealthAt st.lvgs d.uuid d.health,
    acs := if d.health == apiV1.HealthGood || acFail then st.acs
           else deleteACByLocation st.acs d.uuid,
    drives := st.drives }

/-- Modelled from the spec: handleCreatingVolumeInLVG, the handler for a
Creating volume whose location names an LVG (volumemgr.go is not in the
sources).  Spec sections 4.1 and 7: when the LVG record is missing the
volume is marked Failed (a failure to record that is surfaced as an error
with the default requeue); an LVG in Creating means requeue with the
default delay; an LVG in Failed marks the volume Failed; an LVG in
Created appends the volume Id to VolumeRefs exactly once, runs the
provisioner and records Created or Failed; any other (unrecognized) LVG
status yields the default requeue with no error and no store change. -/
def handleCreatingVolumeInLVG (provisionerOk volUpdateFail lvgUpdateFail : Bool)
    (st : ClusterState) (vol : Volume) : CtrlResult × Option String × ClusterState :=
  match findLVG st.lvgs vol.location with
  | none =>
      match updateVolumeCR volUpdateFail st.volumes
          { vol with csiStatus := apiV1.Failed } with
      | some vs => (emptyResult, none, { st with volumes := vs })
      | none => (requeueDefault, some "volume CR is not found", st)
  | some g =>
      if g.status == apiV1.Creating then (requeueDefault, none, st)
      else if g.status == apiV1.Failed then
        match updateVolumeCR volUpdateFail st.volumes
            { vol with csiStatus := apiV1.Failed } with
        | some vs => (emptyResult, none, { st with volumes := vs })
        | none => (requeueDefault, some "volume CR is not found", st)
      else if g.status == apiV1.Created then
        let g' := if g.volumeRefs.contains vol.id then g
                  else { g with volumeRefs := g.volumeRefs ++ [vol.id] }
        match updateLVGCR lvgUpdateFail st.lvgs g' with
        | none => (requeueDefault, some "unable to update LVG CR", st)
        | some gs =>
            let newStatus := if provisionerOk then apiV1.Created else apiV1.Failed
            match updateVolumeCR volUpdateFail st.volumes
                { vol with csiStatus := newStatus } with
            | some vs => (emptyResult, none, { st with lvgs := gs, volumes := vs })
            | none =>
                (requeueDefault, some "volume CR is not found",
                  { st with lvgs := gs })
      else (requeueDefault, none, st)

/-- Result of one data-discovery probe (datadiscover DiscoverResult). -/
structure DiscoverResult where
  message : String
  hasData : Bool
  deriving Repr, DecidableEq

/-- Modelled from the spec: the per-drive loop of discoverDataOnDrives
(volumemgr.go is not in the sources).  Spec section 4.4: a probe success
sets isClean to the negation of hasData; a probe failure leaves the drive
marked not-clean (fail safe) and does not abort the remaining drives. -/
def discoverDataLoop (probe : String → String → Except String DiscoverResult) :
    List Drive → List Drive
  | [] => []
  | d :: rest =>
      match probe d.path d.serialNumber with
      | Except.ok r => { d with isClean := !r.hasData } :: discoverDataLoop probe rest
      | Except.error _ => { d with isClean := false } :: discoverDataLoop probe rest

/-- Modelled from the spec: discoverDataOnDrives (volumemgr.go is not in
the sources).  Probe failures are swallowed per drive, so the pass as a
whole returns the updated drive records without error. -/
def discoverDataOnDrives (probe : String → String → Except String DiscoverResult)
    (drives : List Drive) : Except String (List Drive) :=
  Except.ok (discoverDataLoop probe drives)

/-- Drive fields observable from inventory: a stored record differs from
the fresh inventory item when health, status, size, path or type differ. -/
def driveChanged (old new : Drive) : Bool :=
  old.health != new.health || old.status != new.status ||
  old.size != new.size || old.path != new.path || old.driveType != new.driveType

/-- Copy the observable inventory fields onto a stored record, keeping its
UUID and the other controller-owned fields. -/
def applyDriveFields (old new : Drive) : Drive :=
  { old with
    health := new.health
    status := new.status
    size := new.size
    path := new.path
    driveType := new.driveType }

/-- One Updated entry of a DriveUpdateSet: the stored record before and
after the write (updatedDrive in the source tests). -/
structure updatedDrive where
  PreviousState : Drive
  CurrentState : Drive
  deriving Repr, DecidableEq

/-- Result of one Drive Synchronizer pass (driveUpdates in the source
tests): the three output buckets. -/
structure driveUpdates where
  Created : List Drive
  Updated : List updatedDrive
  NotChanged : List Drive
  deriving Repr, DecidableEq

/-- Classification of one inventory item by the Drive Synchronizer. -/
inductive ItemClass
  | skipped
  | createdNew (d : Drive)
  | updatedRec (u : updatedDrive)
  | unchangedRec (d : Drive)
  deriving Repr, DecidableEq

/-- Created-bucket projection of a classification. -/
def asCreated : ItemClass → Option Drive
  | ItemClass.createdNew d => some d
  | _ => none

/-- Updated-bucket projection of a classification. -/
def asUpdated : ItemClass → Option updatedDrive
  | ItemClass.updatedRec u => some u
  | _ => none

/-- NotChanged-bucket projection of a classification. -/
def asUnchanged : ItemClass → Option Drive
  | ItemClass.unchangedRec d => some d
  | _ => none

/-- Modelled from the spec: how one inventory item is classified against
the single consistent read of stored Drive records (volumemgr.go is not
in the sources).  Spec section 4.2: an empty serial number is skipped; an
unmatched serial creates a new record (a UUID is synthesized when the
inventory item carries none); a matched serial is Updated when an
observable field differs (keeping before/after snapshots) and NotChanged
otherwise. -/
def classifyItem (stored : List Drive) (fresh : Drive → String) (inv : Drive) :
    ItemClass :=
  if inv.serialNumber == "" then ItemClass.skipped
  else
    match stored.find? (fun d => d.serialNumber == inv.serialNumber) with
    | none => ItemClass.createdNew
        { inv with uuid := if inv.uuid == "" then fresh inv else inv.uuid }
    | some old =>
        if driveChanged old inv then
          ItemClass.updatedRec ⟨old, applyDriveFields old inv⟩
        else ItemClass.unchangedRec old

/-- Serial numbers reported by the fresh inventory. -/
def inventorySerials (inventory : List Drive) : List String :=
  inventory.map (fun d => d.serialNumber)

/-- Modelled from the spec: the missing-hardware sweep of the Drive
Synchronizer (volumemgr.go is not in the sources).  Every stored record
whose serial is absent from the fresh inventory is reported as Updated
with health UNKNOWN and status OFFLINE (never deleted). -/
def offlineMissing (stored inventory : List Drive) : List updatedDrive :=
  (stored.filter (fun d => !((inventorySerials inventory).contains d.serialNumber))).map
    (fun d => ⟨d, { d with
                    health := apiV1.HealthUnknown
                    status := apiV1.DriveStatusOffline }⟩)

/-- Modelled from the spec: the store contents for one previously stored
record after the pass — updated in place when its inventory match changed
(and the write persisted), marked UNKNOWN/OFFLINE when missing from
inventory (and the write persisted), untouched otherwise. -/
def persistStored (updateFails : String → Bool) (inventory : List Drive)
    (d : Drive) : Drive :=
  match inventory.find? (fun i => i.serialNumber == d.serialNumber) with
  | some i =>
      if driveChanged d i && !updateFails d.serialNumber then applyDriveFields d i
      else d
  | none =>
      if updateFails d.serialNumber then d
      else { d with
             health := apiV1.HealthUnknown
             status := apiV1.DriveStatusOffline }

/-- Modelled from the spec: updateDrivesCRs, one Drive Synchronizer pass
(volumemgr.go is not in the sources).  A failed initial listing aborts the
whole pass with an error; otherwise every inventory item is classified
into the three buckets computed from the single initial read, bucket
contents reflect attempted writes while the persisted store reflects only
the writes that succeeded (`createFails`/`updateFails` inject per-serial
store failures), and stored records missing from inventory are swept to
UNKNOWN/OFFLINE and reported as Updated. -/
def updateDrivesCRs (listFail : Bool) (createFails updateFails : String → Bool)
    (fresh : Drive → String) (stored inventory : List Drive) :
    Except String (driveUpdates × List Drive) :=
  if listFail then Except.error "updateDrivesCRs return error"
  else
    let cls := inventory.map (classifyItem stored fresh)
    let upd : driveUpdates :=
      ⟨cls.filterMap asCreated,
       cls.filterMap asUpdated ++ offlineMissing stored inventory,
       cls.filterMap asUnchanged⟩
    let newStored :=
      stored.map (persistStored updateFails inventory) ++
      (cls.filterMap asCreated).filter (fun d => !(createFails d.serialNumber))
    Except.ok (upd, newStored)

/-- A serial number is reported in the Created bucket. -/
def serialInCreated (upd : driveUpdates) (s : String) : Prop :=
  ∃ c ∈ upd.Created, c.serialNumber = s

/-- A serial number is reported in the NotChanged bucket. -/
def serialInNotChanged (upd : driveUpdates) (s : String) : Prop :=
  ∃ c ∈ upd.NotChanged, c.serialNumber = s

/-- An inventory item is reported in the Updated bucket with both
snapshots populated: the previous stored record and the record with the
item's observable fields applied. -/
def serialInUpdated (upd : driveUpdates) (i : Drive) : Prop :=
  ∃ u ∈ upd.Updated, u.PreviousState.serialNumber = i.serialNumber ∧
    u.CurrentState = applyDriveFields u.PreviousState i

/-- LVM query layer consumed by the System LVG Discoverer (lvmOps):
physical volumes, volume-group resolution, free space, logical volumes. -/
structure LvmOps where
  getAllPVs : List String
  vgNameByPV : String → Except String String
  vgFreeSpace : String → Except String Int
  lvsInVG : String → Except String (List String)

/-- Prefix test on strings through their character lists (the physical
volume on the system drive is the PV whose device name starts with the
drive's path). -/
def strStarts (p s : String) : Bool :=
  List.isPrefixOf p.data s.data

/-- Create or refresh the AvailableCapacity record at a location so that
its size is the given free space. -/
def upsertAC (acs : List AvailableCapacity) (nodeId loc : String)
    (size : Int) : List AvailableCapacity :=
  if acs.any (fun ac => ac.location == loc) then
    acs.map (fun ac => if ac.location == loc then { ac with size := size } else ac)
  else acs ++ [⟨nodeId, "SYSLVG", loc, size⟩]

/-- Modelled from the spec: the per-candidate body of
discoverLVGOnSystemDrive (volumemgr.go is not in the sources).  Spec
section 4.5: when an LVG record already references the drive UUID, only
its AvailableCapacity is refreshed to the group's current free space;
otherwise the physical volume on the drive's path is resolved to a volume
group, its logical volumes are enumerated first (a failure there aborts
with a descriptive error and persists nothing), and only then are the LVG
record (status Created, Locations = [drive UUID], VolumeRefs = the
adopted logical volumes) and its AvailableCapacity written. -/
def discoverLVGForDrive (ops : LvmOps) (nodeId : String) (st : ClusterState)
    (duuid : String) : ClusterState × Option String :=
  match st.lvgs.find? (fun g => g.locations.contains duuid) with
  | some g =>
      match ops.vgFreeSpace g.name with
      | Except.ok free =>
          ({ st with acs := upsertAC st.acs nodeId g.name free }, none)
      | Except.error e => (st, some e)
  | none =>
      match st.drives.find? (fun d => d.uuid == duuid) with
      | none => (st, none)
      | some d =>
          match ops.getAllPVs.find? (fun pv => strStarts d.path pv) with
          | none => (st, none)
          | some pv =>
              match ops.vgNameByPV pv with
              | Except.error e => (st, some e)
              | Except.ok vg =>
                  match ops.lvsInVG vg with
                  | Except.error e =>
                      (st, some ("unable to determine LVs in system VG: " ++ e))
                  | Except.ok lvs =>
                      match ops.vgFreeSpace vg with
                      | Except.error e => (st, some e)
                      | Except.ok free =>
                          ({ st with
                             lvgs := st.lvgs ++
                               [⟨vg, nodeId, [duuid], d.size, apiV1.Created,
                                 apiV1.HealthGood, lvs⟩]
                             acs := upsertAC st.acs nodeId vg free }, none)

/-- Modelled from the spec: discoverLVGOnSystemDrive over the recorded
system-drive UUIDs (volumemgr.go is not in the sources); the first
candidate failure aborts the pass with its error. -/
def discoverLVGOnSystemDrive (ops : LvmOps) (nodeId : String) :
    List String → ClusterState → ClusterState × Option String
  | [], st => (st, none)
  | u :: rest, st =>
      match discoverLVGForDrive ops nodeId st u with
      | (st', none) => discoverLVGOnSystemDrive ops nodeId rest st'
      | (st', some e) => (st', some e)

/-- Program counter of one reconcile worker handling a Creating
drive-located volume, per the concurrency contract of spec sections 4.1
and 5: run the provisioner (idempotent/re-entrant per the provisioner
contract), re-read the record immediately before the status write, then
attempt the optimistic-concurrency write, retrying the whole handler when
the versioned write conflicts; a worker that finishes carries the error
it returned. -/
inductive ReconcilePC
  | provision
  | readRec
  | writeRec (readVer : Nat)
  | done (err : Option String)
  deriving Repr, DecidableEq

/-- The single versioned Volume record both workers race on (the resource
store's optimistic-concurrency token plus the CSI status field). -/
structure VersionedVol where
  csiStatus : String
  version : Nat
  deriving Repr, DecidableEq

/-- Whole-system state of the race: the stored record, the provisioning
side effect (a set flag — PrepareVolume succeeding is idempotent, so
re-running it adds nothing), and the two workers. -/
structure RaceState where
  vol : VersionedVol
  prepared : Bool
  thA : ReconcilePC
  thB : ReconcilePC
  deriving Repr, DecidableEq

/-- Modelled from the spec: one step of worker A of the two racing
Reconcile calls (volumemgr.go is not in the sources).  A provision step
records the idempotent side effect, a read step captures the record
version, a write step succeeds only when the version is unchanged
(writing Created and bumping the version) and otherwise retries the
whole handler, and a finished worker never acts again. -/
def stepRaceA (s : RaceState) : RaceState :=
  match s.thA with
  | ReconcilePC.provision =>
      { s with prepared := true, thA := ReconcilePC.readRec }
  | ReconcilePC.readRec =>
      { s with thA := ReconcilePC.writeRec s.vol.version }
  | ReconcilePC.writeRec rv =>
      if s.vol.version = rv then
        { s with
          vol := ⟨apiV1.Created, s.vol.version + 1⟩
          thA := ReconcilePC.done none }
      else { s with thA := ReconcilePC.provision }
  | ReconcilePC.done _ => s

/-- One step of worker B, symmetric to stepRaceA. -/
def stepRaceB (s : RaceState) : RaceState :=
  match s.thB with
  | ReconcilePC.provision =>
      { s with prepared := true, thB := ReconcilePC.readRec }
  | ReconcilePC.readRec =>
      { s with thB := ReconcilePC.writeRec s.vol.version }
  | ReconcilePC.writeRec rv =>
      if s.vol.version = rv then
        { s with
          vol := ⟨apiV1.Created, s.vol.version + 1⟩
          thB := ReconcilePC.done none }
      else { s with thB := ReconcilePC.provision }
  | ReconcilePC.done _ => s

/-- One scheduler step: `who` picks the worker that acts. -/
def stepRace (s : RaceState) (who : Bool) : RaceState :=
  match who with
  | true => stepRaceA s
  | false => stepRaceB s

/-- Run the race under a schedule (the list of which worker steps next). -/
def runRace (sched : List Bool) (s : RaceState) : RaceState :=
  sched.foldl stepRace s

/-- Both workers start at the handler entry on a Creating record. -/
def initRace : RaceState :=
  ⟨⟨apiV1.Creating, 0⟩, false, ReconcilePC.provision, ReconcilePC.provision⟩

/-- A worker that has returned. -/
def isDoneB : ReconcilePC → Bool
  | ReconcilePC.done _ => true
  | _ => false

/-- A fair tail schedule: four uninterrupted steps for each worker, which
always suffice to drive it to completion from any point (at most one
retry of the whole handler is ever needed when it runs alone). -/
def finishSched : List Bool :=
  [true, true, true, true, false, false, false, false]

/-- Inductive invariant of the race: the provisioning side effect is in
place as soon as either worker has passed its provision step, and a
finished worker returned no error with the stored status already
Created. -/
def raceInv (s : RaceState) : Prop :=
  (s.thA ≠ ReconcilePC.provision → s.prepared = true) ∧
  (s.thB ≠ ReconcilePC.provision → s.prepared = true) ∧
  (∀ e, s.thA = ReconcilePC.done e →
    e = none ∧ s.vol.csiStatus = apiV1.Created) ∧
  (∀ e, s.thB = ReconcilePC.done e →
    e = none ∧ s.vol.csiStatus = apiV1.Created)

/-- Replacing every record whose id matches the target id by a record
carrying status s makes the stored status of that id equal s. -/
theorem storedStatus_replace (store : List Volume) (vol : Volume) (s : String)
    (hmem : store.any (fun w => w.id == vol.id) = true) :
    storedStatus
      (store.map fun w => if w.id == vol.id then { vol with csiStatus := s } else w)
      vol.id = some s := by
  unfold storedStatus readVolumeCR
  induction store with
  | nil => simp at hmem
  | cons w rest ih =>
    rw [List.map_cons]
    by_cases h : (w.id == vol.id) = true
    · rw [if_pos h]
      simp only [List.find?_cons, beq_self_eq_true]
      rfl
    · rw [if_neg h]
      have h' : (w.id == vol.id) = false := by
        simpa using h
      simp only [List.find?_cons, h']
      exact ih (by simpa [List.any_cons, h'] using hmem)

/-- C2: for a Creating volume on a Drive, prepareVolume with a succeeding
provisioner ends with stored CSIStatus Created and no error; with a
failing provisioner it ends with stored CSIStatus Failed; and when the
record write itself fails it returns a requeue result and leaves the
store unchanged. -/
theorem prepareVolume_c2 (store : List Volume) (vol : Volume)
    (hmem : store.any (fun w => w.id == vol.id) = true) :
    ((prepareVolume true false store vol).err = none ∧
      (prepareVolume true false store vol).res = emptyResult ∧
      storedStatus (prepareVolume true false store vol).store vol.id =
        some apiV1.Created) ∧
    (storedStatus (prepareVolume false false store vol).store vol.id =
        some apiV1.Failed) ∧
    (∀ pOk : Bool, (prepareVolume pOk true store vol).res.Requeue = true ∧
      (prepareVolume pOk true store vol).err.isSome = true ∧
      (prepareVolume pOk true store vol).store = store) := by
  have hsucc : ∀ s : String,
      updateVolumeCR false store { vol with csiStatus := s } =
        some (store.map fun w =>
          if w.id == vol.id then { vol with csiStatus := s } else w) := by
    intro s
    simp [updateVolumeCR, hmem]
  refine ⟨⟨?_, ?_, ?_⟩, ?_, ?_⟩
  · simp [prepareVolume, hsucc apiV1.Created]
  · simp [prepareVolume, hsucc apiV1.Created, emptyResult]
  · have h1 : (prepareVolume true false store vol).store =
        store.map fun w =>
          if w.id == vol.id then { vol with csiStatus := apiV1.Created } else w := by
      simp [prepareVolume, hsucc apiV1.Created]
    rw [h1]
    exact storedStatus_replace store vol apiV1.Created hmem
  · have h2 : (prepareVolume false false store vol).store =
        store.map fun w =>
          if w.id == vol.id then { vol with csiStatus := apiV1.Failed } else w := by
      simp [prepareVolume, hsucc apiV1.Failed]
    rw [h2]
    exact storedStatus_replace store vol apiV1.Failed hmem
  · intro pOk
    refine ⟨?_, ?_, ?_⟩ <;> simp [prepareVolume, updateVolumeCR]

/-- Witness for C2 at a concrete one-volume store. -/
theorem prepareVolume_c2_witness :
    storedStatus
      (prepareVolume true false
        [⟨"vol-1", 150, "HDD", "drive-1", apiV1.Creating, "node-1", ""⟩]
        ⟨"vol-1", 150, "HDD", "drive-1", apiV1.Creating, "node-1", ""⟩).store
      "vol-1" = some apiV1.Created := by
  exact (prepareVolume_c2
    [⟨"vol-1", 150, "HDD", "drive-1", apiV1.Creating, "node-1", ""⟩]
    ⟨"vol-1", 150, "HDD", "drive-1", apiV1.Creating, "node-1", ""⟩
    (by decide)).1.2.2

/-- Deleting the AC records at a location leaves no AC at that location. -/
theorem deleteACByLocation_clears (acs : List AvailableCapacity) (loc : String) :
    ∀ ac ∈ deleteACByLocation acs loc, ¬ ac.location = loc := by
  intro ac hac
  have := List.of_mem_filter hac
  simpa using this

/-- After sub-step (b), every volume located at the target location holds
the propagated health. -/
theorem setVolumesHealthAt_sets (vols : List Volume) (loc h : String) :
    ∀ v ∈ setVolumesHealthAt vols loc h, v.location = loc → v.health = h := by
  intro v hv hloc
  obtain ⟨w, _, hw⟩ := List.mem_map.mp hv
  by_cases hc : (w.location == loc) = true
  · rw [if_pos hc] at hw
    rw [← hw]
  · rw [if_neg hc] at hw
    subst hw
    exact absurd (by simpa using hloc) hc

/-- After sub-step (c), every LVG whose locations include the target UUID
holds the propagated health. -/
theorem setLVGsHealthAt_sets (lvgs : List LogicalVolumeGroup) (uuid h : String) :
    ∀ g ∈ setLVGsHealthAt lvgs uuid h, uuid ∈ g.locations → g.health = h := by
  intro g hg hloc
  obtain ⟨w, _, hw⟩ := List.mem_map.mp hg
  by_cases hc : (w.locations.contains uuid) = true
  · rw [if_pos hc] at hw
    rw [← hw]
  · rw [if_neg hc] at hw
    subst hw
    exact absurd (List.elem_eq_true_of_mem hloc) hc

/-- C6: when the health propagator runs for a drive whose health is no
longer GOOD, the AC at the drive's location is deleted, every Volume
located on the drive gets the drive's health, every LVG referencing the
drive gets the drive's health, and a store failure injected into one
sub-step does not prevent the other sub-steps from taking effect. -/
theorem handleDriveStatusChange_c6 (acFail volFail lvgFail : Bool)
    (st : ClusterState) (d : Drive) (hbad : ¬ d.health = apiV1.HealthGood) :
    (acFail = false →
      ∀ ac ∈ (handleDriveStatusChange acFail volFail lvgFail st d).acs,
        ¬ ac.location = d.uuid) ∧
    (volFail = false →
      ∀ v ∈ (handleDriveStatusChange acFail volFail lvgFail st d).volumes,
        v.location = d.uuid → v.health = d.health) ∧
    (lvgFail = false →
      ∀ g ∈ (handleDriveStatusChange acFail volFail lvgFail st d).lvgs,
        d.uuid ∈ g.locations → g.health = d.health) := by
  refine ⟨?_, ?_, ?_⟩
  · intro hfalse
    subst hfalse
    have hne : (d.health == apiV1.HealthGood) = false := by
      simpa using hbad
    simp only [handleDriveStatusChange, hne, Bool.or_false, Bool.false_eq_true,
      if_false]
    exact deleteACByLocation_clears st.acs d.uuid
  · intro hfalse
    subst hfalse
    simp only [handleDriveStatusChange, Bool.false_eq_true, if_false]
    exact setVolumesHealthAt_sets st.volumes d.uuid d.health
  · intro hfalse
    subst hfalse
    simp only [handleDriveStatusChange, Bool.false_eq_true, if_false]
    exact setLVGsHealthAt_sets st.lvgs d.uuid d.health

/-- Witness for C6: a BAD drive with one AC, one volume and one LVG at its
location. -/
theorem handleDriveStatusChange_c6_witness :
    ((handleDriveStatusChange false false false
      ⟨[⟨"vol-1", 1, "HDD", "drive-uuid", apiV1.Created, "node-1", apiV1.HealthGood⟩],
       [⟨"lvg-1", "node-1", ["drive-uuid"], 10, apiV1.Created, apiV1.HealthGood, []⟩],
       [⟨"node-1", "HDD", "drive-uuid", 5⟩], []⟩
      ⟨"drive-uuid", "sn-1", 500, "node-1", "HDD", apiV1.DriveStatusOnline,
        apiV1.HealthBad, "/dev/sda", false, true, ""⟩).volumes.all
      (fun v => !(v.location == "drive-uuid") || (v.health == apiV1.HealthBad)))
      = true := by
  have h := handleDriveStatusChange_c6 false false false
    ⟨[⟨"vol-1", 1, "HDD", "drive-uuid", apiV1.Created, "node-1", apiV1.HealthGood⟩],
     [⟨"lvg-1", "node-1", ["drive-uuid"], 10, apiV1.Created, apiV1.HealthGood, []⟩],
     [⟨"node-1", "HDD", "drive-uuid", 5⟩], []⟩
    ⟨"drive-uuid", "sn-1", 500, "node-1", "HDD", apiV1.DriveStatusOnline,
      apiV1.HealthBad, "/dev/sda", false, true, ""⟩ (by decide)
  have h2 := h.2.1 rfl
  rw [List.all_eq_true]
  intro v hv
  by_cases hl : (v.location == "drive-uuid") = true
  · have hb := h2 v hv (by simpa using hl)
    simp [hb]
  · have hl' : (v.location == "drive-uuid") = false := by
      simpa using hl
    simp [hl']

/-- C10: for a Creating volume located on an LVG whose status is none of
Creating, Created or Failed, handleCreatingVolumeInLVG returns no error,
a requeue result with the default volume delay, and leaves the store
(hence the volume's stored CSIStatus) unchanged. -/
theorem handleCreatingVolumeInLVG_c10 (pOk vFail gFail : Bool)
    (st : ClusterState) (vol : Volume) (g : LogicalVolumeGroup)
    (hg : findLVG st.lvgs vol.location = some g)
    (h1 : (g.status == apiV1.Creating) = false)
    (h2 : (g.status == apiV1.Created) = false)
    (h3 : (g.status == apiV1.Failed) = false) :
    handleCreatingVolumeInLVG pOk vFail gFail st vol =
      (requeueDefault, none, st) := by
  unfold handleCreatingVolumeInLVG
  rw [hg]
  simp [h1, h2, h3]

/-- Witness for C10: an LVG stored with the empty (unrecognized) status. -/
theorem handleCreatingVolumeInLVG_c10_witness :
    handleCreatingVolumeInLVG true false false
      ⟨[], [⟨"lvg-1", "node-1", ["drive-uuid"], 10, "", apiV1.HealthGood, []⟩],
        [], []⟩
      ⟨"vol-1", 1, "HDDLVG", "lvg-1", apiV1.Creating, "node-1", ""⟩ =
      (requeueDefault, none,
        ⟨[], [⟨"lvg-1", "node-1", ["drive-uuid"], 10, "", apiV1.HealthGood, []⟩],
          [], []⟩) := by
  exact handleCreatingVolumeInLVG_c10 true false false
    ⟨[], [⟨"lvg-1", "node-1", ["drive-uuid"], 10, "", apiV1.HealthGood, []⟩],
      [], []⟩
    ⟨"vol-1", 1, "HDDLVG", "lvg-1", apiV1.Creating, "node-1", ""⟩
    ⟨"lvg-1", "node-1", ["drive-uuid"], 10, "", apiV1.HealthGood, []⟩
    (by decide) (by decide) (by decide) (by decide)

/-- C7: data discovery returns without error and, drive by drive, a probe
success sets isClean to the negation of hasData (also when the drive was
previously marked clean) while a probe failure ends with the drive
not-clean; the identity of each drive is preserved. -/
theorem discoverDataOnDrives_c7 (probe : String → String → Except String DiscoverResult)
    (drives : List Drive) :
    ∃ ds, discoverDataOnDrives probe drives = Except.ok ds ∧
      List.Forall₂ (fun d d' =>
        d'.uuid = d.uuid ∧ d'.serialNumber = d.serialNumber ∧
        (∀ r, probe d.path d.serialNumber = Except.ok r →
          d'.isClean = (!r.hasData)) ∧
        (∀ e, probe d.path d.serialNumber = Except.error e →
          d'.isClean = false)) drives ds := by
  refine ⟨discoverDataLoop probe drives, rfl, ?_⟩
  induction drives with
  | nil =>
    rw [discoverDataLoop]
    exact List.Forall₂.nil
  | cons d rest ih =>
    rw [discoverDataLoop]
    cases hp : probe d.path d.serialNumber with
    | ok r =>
      refine List.Forall₂.cons ⟨rfl, rfl, ?_, ?_⟩ ih
      · intro r' hr'
        rw [hp] at hr'
        cases hr'
        rfl
      · intro e he
        rw [hp] at he
        cases he
    | error e =>
      refine List.Forall₂.cons ⟨rfl, rfl, ?_, ?_⟩ ih
      · intro r' hr'
        rw [hp] at hr'
        cases hr'
      · intro e' he'
        rfl

/-- Classification skips an inventory item with an empty serial number. -/
theorem classifyItem_eq_skipped (stored : List Drive) (fresh : Drive → String)
    (j : Drive) (h0 : (j.serialNumber == "") = true) :
    classifyItem stored fresh j = ItemClass.skipped := by
  unfold classifyItem
  rw [if_pos h0]

/-- Classification computes createdNew exactly on a non-empty serial with
no stored match. -/
theorem classifyItem_eq_createdNew (stored : List Drive) (fresh : Drive → String)
    (j : Drive) (h0 : (j.serialNumber == "") = false)
    (hf : stored.find? (fun d => d.serialNumber == j.serialNumber) = none) :
    classifyItem stored fresh j = ItemClass.createdNew
      { j with uuid := if j.uuid == "" then fresh j else j.uuid } := by
  unfold classifyItem
  rw [h0, hf]
  simp

/-- Classification computes updatedRec exactly on a non-empty serial whose
stored match differs in an observable field. -/
theorem classifyItem_eq_updatedRec (stored : List Drive) (fresh : Drive → String)
    (j old : Drive) (h0 : (j.serialNumber == "") = false)
    (hf : stored.find? (fun d => d.serialNumber == j.serialNumber) = some old)
    (hc : driveChanged old j = true) :
    classifyItem stored fresh j =
      ItemClass.updatedRec ⟨old, applyDriveFields old j⟩ := by
  unfold classifyItem
  rw [h0, hf]
  simp [hc]

/-- Classification computes unchangedRec exactly on a non-empty serial
whose stored match agrees on every observable field. -/
theorem classifyItem_eq_unchangedRec (stored : List Drive) (fresh : Drive → String)
    (j old : Drive) (h0 : (j.serialNumber == "") = false)
    (hf : stored.find? (fun d => d.serialNumber == j.serialNumber) = some old)
    (hc : driveChanged old j = false) :
    classifyItem stored fresh j = ItemClass.unchangedRec old := by
  unfold classifyItem
  rw [h0, hf]
  simp [hc]

/-- Inversion: a createdNew classification came from a non-empty serial
with no stored match, and the created record keeps the item's serial. -/
theorem classifyItem_createdNew_inv (stored : List Drive) (fresh : Drive → String)
    (j : Drive) (c : Drive)
    (h : classifyItem stored fresh j = ItemClass.createdNew c) :
    c.serialNumber = j.serialNumber ∧
    stored.find? (fun d => d.serialNumber == j.serialNumber) = none := by
  by_cases h0 : (j.serialNumber == "") = true
  · rw [classifyItem_eq_skipped stored fresh j h0] at h
    cases h
  · have h0' : (j.serialNumber == "") = false := by
      simpa using h0
    cases hf : stored.find? (fun d => d.serialNumber == j.serialNumber) with
    | none =>
      rw [classifyItem_eq_createdNew stored fresh j h0' hf] at h
      cases h
      exact ⟨rfl, rfl⟩
    | some old =>
      by_cases hc : driveChanged old j = true
      · rw [classifyItem_eq_updatedRec stored fresh j old h0' hf hc] at h
        cases h
      · rw [classifyItem_eq_unchangedRec stored fresh j old h0' hf
          (by simpa using hc)] at h
        cases h

/-- Inversion: an updatedRec classification came from a stored match that
differs in an observable field; the entry holds the stored record and the
record with the inventory fields applied. -/
theorem classifyItem_updatedRec_inv (stored : List Drive) (fresh : Drive → String)
    (j : Drive) (u : updatedDrive)
    (h : classifyItem stored fresh j = ItemClass.updatedRec u) :
    u.PreviousState ∈ stored ∧
    u.PreviousState.serialNumber = j.serialNumber ∧
    u.CurrentState = applyDriveFields u.PreviousState j ∧
    driveChanged u.PreviousState j = true := by
  by_cases h0 : (j.serialNumber == "") = true
  · rw [classifyItem_eq_skipped stored fresh j h0] at h
    cases h
  · have h0' : (j.serialNumber == "") = false := by
      simpa using h0
    cases hf : stored.find? (fun d => d.serialNumber == j.serialNumber) with
    | none =>
      rw [classifyItem_eq_createdNew stored fresh j h0' hf] at h
      cases h
    | some old =>
      by_cases hc : driveChanged old j = true
      · rw [classifyItem_eq_updatedRec stored fresh j old h0' hf hc] at h
        cases h
        refine ⟨List.mem_of_find?_eq_some hf, ?_, rfl, hc⟩
        simpa using List.find?_some hf
      · rw [classifyItem_eq_unchangedRec stored fresh j old h0' hf
          (by simpa using hc)] at h
        cases h

/-- Inversion: an unchangedRec classification came from a stored match
that agrees on every observable field; the entry is the stored record. -/
theorem classifyItem_unchangedRec_inv (stored : List Drive) (fresh : Drive → String)
    (j : Drive) (nc : Drive)
    (h : classifyItem stored fresh j = ItemClass.unchangedRec nc) :
    nc ∈ stored ∧ nc.serialNumber = j.serialNumber ∧
    driveChanged nc j = false := by
  by_cases h0 : (j.serialNumber == "") = true
  · rw [classifyItem_eq_skipped stored fresh j h0] at h
    cases h
  · have h0' : (j.serialNumber == "") = false := by
      simpa using h0
    cases hf : stored.find? (fun d => d.serialNumber == j.serialNumber) with
    | none =>
      rw [classifyItem_eq_createdNew stored fresh j h0' hf] at h
      cases h
    | some old =>
      by_cases hc : driveChanged old j = true
      · rw [classifyItem_eq_updatedRec stored fresh j old h0' hf hc] at h
        cases h
      · rw [classifyItem_eq_unchangedRec stored fresh j old h0' hf
          (by simpa using hc)] at h
        cases h
        refine ⟨List.mem_of_find?_eq_some hf, ?_, by simpa using hc⟩
        simpa using List.find?_some hf

/-- With pairwise-distinct stored serials, a stored record matching the
looked-up serial is exactly what the lookup returns. -/
theorem find?_serial_eq_some (stored : List Drive) (d : Drive) (s : String)
    (hsto : (inventorySerials stored).Nodup) (hd : d ∈ stored)
    (hds : d.serialNumber = s) :
    stored.find? (fun x => x.serialNumber == s) = some d := by
  cases hf : stored.find? (fun x => x.serialNumber == s) with
  | none =>
    have hnone := List.find?_eq_none.mp hf d hd
    rw [hds] at hnone
    exact absurd (beq_self_eq_true s) hnone
  | some old =>
    have hom := List.mem_of_find?_eq_some hf
    have hos : old.serialNumber = s := by
      simpa using List.find?_some hf
    have heq : old = d :=
      List.inj_on_of_nodup_map hsto hom hd (by rw [hos, hds])
    rw [heq]

/-- C3: a stored Drive record whose serial the fresh inventory omits is
not deleted by the synchronizer pass: the store afterwards contains the
record with health UNKNOWN and status OFFLINE (same UUID, serial and all
other fields), and the pass itself returns without error. -/
theorem updateDrivesCRs_c3 (createFails updateFails : String → Bool)
    (fresh : Drive → String) (stored inventory : List Drive) (d : Drive)
    (hd : d ∈ stored)
    (hmiss : ∀ i ∈ inventory, ¬ i.serialNumber = d.serialNumber)
    (hper : updateFails d.serialNumber = false) :
    ∃ upd newStored,
      updateDrivesCRs false createFails updateFails fresh stored inventory =
        Except.ok (upd, newStored) ∧
      { d with
        health := apiV1.HealthUnknown
        status := apiV1.DriveStatusOffline } ∈ newStored := by
  refine ⟨_, _, rfl, ?_⟩
  have hfind : inventory.find? (fun i => i.serialNumber == d.serialNumber) = none := by
    rw [List.find?_eq_none]
    intro i hi
    simpa using hmiss i hi
  have hpers : persistStored updateFails inventory d =
      { d with
        health := apiV1.HealthUnknown
        status := apiV1.DriveStatusOffline } := by
    unfold persistStored
    rw [hfind, hper]
    simp
  exact List.mem_append_left _ (hpers ▸ List.mem_map_of_mem _ hd)

/-- Witness for C3: one stored drive, empty fresh inventory. -/
theorem updateDrivesCRs_c3_witness :
    ∃ upd newStored,
      updateDrivesCRs false (fun _ => false) (fun _ => false) (fun _ => "u-1")
        [⟨"uuid-1", "sn-1", 500, "node-1", "HDD", apiV1.DriveStatusOnline,
          apiV1.HealthGood, "/dev/sda", false, true, ""⟩] [] =
        Except.ok (upd, newStored) ∧
      { (⟨"uuid-1", "sn-1", 500, "node-1", "HDD", apiV1.DriveStatusOnline,
          apiV1.HealthGood, "/dev/sda", false, true, ""⟩ : Drive) with
        health := apiV1.HealthUnknown
        status := apiV1.DriveStatusOffline } ∈ newStored := by
  exact updateDrivesCRs_c3 (fun _ => false) (fun _ => false) (fun _ => "u-1")
    [⟨"uuid-1", "sn-1", 500, "node-1", "HDD", apiV1.DriveStatusOnline,
      apiV1.HealthGood, "/dev/sda", false, true, ""⟩] []
    ⟨"uuid-1", "sn-1", 500, "node-1", "HDD", apiV1.DriveStatusOnline,
      apiV1.HealthGood, "/dev/sda", false, true, ""⟩
    (by simp) (by simp) rfl

/-- Persisting a stored record never changes its serial number. -/
theorem persistStored_serial (updateFails : String → Bool)
    (inventory : List Drive) (d : Drive) :
    (persistStored updateFails inventory d).serialNumber = d.serialNumber := by
  unfold persistStored
  split
  · split <;> rfl
  · split <;> rfl

/-- C5: when persisting the create of a brand-new drive record fails, the
pass still returns without error and the drive is still reported in the
Created bucket of the returned DriveUpdateSet. -/
theorem updateDrivesCRs_c5 (createFails updateFails : String → Bool)
    (fresh : Drive → String) (stored inventory : List Drive) (i : Drive)
    (hi : i ∈ inventory)
    (hser : (i.serialNumber == "") = false)
    (hnew : ∀ d ∈ stored, ¬ d.serialNumber = i.serialNumber)
    (hfail : createFails i.serialNumber = true) :
    ∃ upd newStored,
      updateDrivesCRs false createFails updateFails fresh stored inventory =
        Except.ok (upd, newStored) ∧
      (∃ c ∈ upd.Created, c.serialNumber = i.serialNumber) ∧
      (∀ d' ∈ newStored, ¬ d'.serialNumber = i.serialNumber) := by
  refine ⟨_, _, rfl, ?_, ?_⟩
  · have hf : stored.find? (fun d => d.serialNumber == i.serialNumber) = none := by
      rw [List.find?_eq_none]
      intro d hd
      simpa using hnew d hd
    have hcls := classifyItem_eq_createdNew stored fresh i hser hf
    refine ⟨{ i with uuid := if i.uuid == "" then fresh i else i.uuid }, ?_, rfl⟩
    exact List.mem_filterMap.mpr
      ⟨classifyItem stored fresh i, List.mem_map_of_mem _ hi, by rw [hcls]; rfl⟩
  · intro d' hd' hcontra
    rcases List.mem_append.mp hd' with hmap | hflt
    · obtain ⟨d0, hd0, heq⟩ := List.mem_map.mp hmap
      refine hnew d0 hd0 ?_
      rw [← persistStored_serial updateFails inventory d0, heq]
      exact hcontra
    · have hkeep := (List.mem_filter.mp hflt).2
      rw [hcontra, hfail] at hkeep
      simp at hkeep

/-- Witness for C5: one fresh inventory item whose create persist fails. -/
theorem updateDrivesCRs_c5_witness :
    ∃ upd newStored,
      updateDrivesCRs false (fun _ => true) (fun _ => false) (fun _ => "u-1")
        []
        [⟨"uuid-1", "sn-1", 500, "node-1", "HDD", apiV1.DriveStatusOnline,
          apiV1.HealthGood, "/dev/sda", false, true, ""⟩] =
        Except.ok (upd, newStored) ∧
      (∃ c ∈ upd.Created, c.serialNumber = "sn-1") := by
  obtain ⟨upd, ns, heq, h1, h2⟩ :=
    updateDrivesCRs_c5 (fun _ => true) (fun _ => false) (fun _ => "u-1")
      []
      [⟨"uuid-1", "sn-1", 500, "node-1", "HDD", apiV1.DriveStatusOnline,
        apiV1.HealthGood, "/dev/sda", false, true, ""⟩]
      ⟨"uuid-1", "sn-1", 500, "node-1", "HDD", apiV1.DriveStatusOnline,
        apiV1.HealthGood, "/dev/sda", false, true, ""⟩
      (by simp) (by decide) (by simp) rfl
  exact ⟨upd, ns, heq, h1⟩

/-- Inversion of the Created-bucket projection. -/
theorem asCreated_eq_some (cl : ItemClass) (c : Drive)
    (h : asCreated cl = some c) : cl = ItemClass.createdNew c := by
  cases cl <;> simp [asCreated] at h
  rw [h]

/-- Inversion of the Updated-bucket projection. -/
theorem asUpdated_eq_some (cl : ItemClass) (u : updatedDrive)
    (h : asUpdated cl = some u) : cl = ItemClass.updatedRec u := by
  cases cl <;> simp [asUpdated] at h
  rw [h]

/-- Inversion of the NotChanged-bucket projection. -/
theorem asUnchanged_eq_some (cl : ItemClass) (c : Drive)
    (h : asUnchanged cl = some c) : cl = ItemClass.unchangedRec c := by
  cases cl <;> simp [asUnchanged] at h
  rw [h]

/-- Characterization of the Created bucket: with pairwise-distinct
inventory serials, an inventory item's serial is reported Created exactly
when no stored record carries it. -/
theorem created_char (stored inventory : List Drive) (fresh : Drive → String)
    (i : Drive) (hi : i ∈ inventory) (hser : (i.serialNumber == "") = false)
    (hinv : (inventorySerials inventory).Nodup) :
    (∃ c ∈ (inventory.map (classifyItem stored fresh)).filterMap asCreated,
        c.serialNumber = i.serialNumber) ↔
      (∀ d ∈ stored, ¬ d.serialNumber = i.serialNumber) := by
  constructor
  · rintro ⟨c, hc, hcs⟩
    obtain ⟨cl, hcl, hsome⟩ := List.mem_filterMap.mp hc
    obtain ⟨j, hj, hj2⟩ := List.mem_map.mp hcl
    rw [asCreated_eq_some cl c hsome] at hj2
    obtain ⟨hcs', hfnone⟩ := classifyItem_createdNew_inv stored fresh j c hj2
    have hji : j = i :=
      List.inj_on_of_nodup_map hinv hj hi (hcs'.symm.trans hcs)
    subst hji
    intro d hd hcontra
    have := List.find?_eq_none.mp hfnone d hd
    exact this (by simpa using hcontra)
  · intro hnone
    have hf : stored.find? (fun d => d.serialNumber == i.serialNumber) = none := by
      rw [List.find?_eq_none]
      intro d hd
      simpa using hnone d hd
    refine ⟨{ i with uuid := if i.uuid == "" then fresh i else i.uuid }, ?_, rfl⟩
    exact List.mem_filterMap.mpr
      ⟨classifyItem stored fresh i, List.mem_map_of_mem _ hi,
        by rw [classifyItem_eq_createdNew stored fresh i hser hf]; rfl⟩

/-- Characterization of the NotChanged bucket: with pairwise-distinct
inventory and stored serials, an inventory item's serial is reported
NotChanged exactly when a stored record carries it and no observable
field differs. -/
theorem notChanged_char (stored inventory : List Drive) (fresh : Drive → String)
    (i : Drive) (hi : i ∈ inventory) (hser : (i.serialNumber == "") = false)
    (hinv : (inventorySerials inventory).Nodup)
    (hsto : (inventorySerials stored).Nodup) :
    (∃ c ∈ (inventory.map (classifyItem stored fresh)).filterMap asUnchanged,
        c.serialNumber = i.serialNumber) ↔
      (∃ d ∈ stored, d.serialNumber = i.serialNumber ∧
        driveChanged d i = false) := by
  constructor
  · rintro ⟨nc, hnc, hncs⟩
    obtain ⟨cl, hcl, hsome⟩ := List.mem_filterMap.mp hnc
    obtain ⟨j, hj, hj2⟩ := List.mem_map.mp hcl
    rw [asUnchanged_eq_some cl nc hsome] at hj2
    obtain ⟨hmem, hserEq, hch⟩ := classifyItem_unchangedRec_inv stored fresh j nc hj2
    have hji : j = i :=
      List.inj_on_of_nodup_map hinv hj hi (hserEq.symm.trans hncs)
    subst hji
    exact ⟨nc, hmem, hncs, hch⟩
  · rintro ⟨d, hd, hds, hch⟩
    have hf := find?_serial_eq_some stored d i.serialNumber hsto hd hds
    refine ⟨d, ?_, hds⟩
    exact List.mem_filterMap.mpr
      ⟨classifyItem stored fresh i, List.mem_map_of_mem _ hi,
        by rw [classifyItem_eq_unchangedRec stored fresh i d hser hf hch]; rfl⟩

/-- Characterization of the Updated bucket for an inventory item: with
pairwise-distinct inventory and stored serials, the item lands in Updated
(with both snapshots populated) exactly when a stored record carries its
serial and some observable field differs; the missing-hardware sweep can
never contribute such an entry because its serials are absent from the
inventory. -/
theorem updated_char (stored inventory : List Drive) (fresh : Drive → String)
    (i : Drive) (hi : i ∈ inventory) (hser : (i.serialNumber == "") = false)
    (hinv : (inventorySerials inventory).Nodup)
    (hsto : (inventorySerials stored).Nodup) :
    (∃ u ∈ (inventory.map (classifyItem stored fresh)).filterMap asUpdated ++
        offlineMissing stored inventory,
        u.PreviousState.serialNumber = i.serialNumber ∧
        u.CurrentState = applyDriveFields u.PreviousState i) ↔
      (∃ d ∈ stored, d.serialNumber = i.serialNumber ∧
        driveChanged d i = true) := by
  constructor
  · rintro ⟨u, hu, hus, _⟩
    rcases List.mem_append.mp hu with hinvPart | hoff
    · obtain ⟨cl, hcl, hsome⟩ := List.mem_filterMap.mp hinvPart
      obtain ⟨j, hj, hj2⟩ := List.mem_map.mp hcl
      rw [asUpdated_eq_some cl u hsome] at hj2
      obtain ⟨hmem, hserEq, _, hch⟩ :=
        classifyItem_updatedRec_inv stored fresh j u hj2
      have hji : j = i :=
        List.inj_on_of_nodup_map hinv hj hi (hserEq.symm.trans hus)
      subst hji
      exact ⟨u.PreviousState, hmem, hus, hch⟩
    · obtain ⟨dm, hdm, hdmu⟩ := List.mem_map.mp hoff
      have hkeep := (List.mem_filter.mp hdm).2
      have hdms : dm.serialNumber = i.serialNumber := by
        rw [← hdmu] at hus
        exact hus
      have hmemSer : i.serialNumber ∈ inventorySerials inventory :=
        List.mem_map_of_mem _ hi
      rw [← hdms] at hmemSer
      have hcontains : (inventorySerials inventory).contains dm.serialNumber = true :=
        List.elem_eq_true_of_mem hmemSer
      rw [hcontains] at hkeep
      simp at hkeep
  · rintro ⟨d, hd, hds, hch⟩
    have hf := find?_serial_eq_some stored d i.serialNumber hsto hd hds
    refine ⟨⟨d, applyDriveFields d i⟩, ?_, hds, rfl⟩
    refine List.mem_append_left _ ?_
    exact List.mem_filterMap.mpr
      ⟨classifyItem stored fresh i, List.mem_map_of_mem _ hi,
        by rw [classifyItem_eq_updatedRec stored fresh i d hser hf hch]; rfl⟩

/-- C4: with pairwise-distinct serials, every inventory item with a
non-empty serial lands in exactly one of the three disjoint buckets:
Created iff no stored record has its serial, NotChanged iff a stored
match exists with no observable difference, Updated (with both snapshots
populated) iff a stored match exists with an observable difference. -/
theorem updateDrivesCRs_c4 (createFails updateFails : String → Bool)
    (fresh : Drive → String) (stored inventory : List Drive) (i : Drive)
    (hi : i ∈ inventory) (hser : (i.serialNumber == "") = false)
    (hinv : (inventorySerials inventory).Nodup)
    (hsto : (inventorySerials stored).Nodup) :
    ∃ upd newStored,
      updateDrivesCRs false createFails updateFails fresh stored inventory =
        Except.ok (upd, newStored) ∧
      (serialInCreated upd i.serialNumber ↔
        ∀ d ∈ stored, ¬ d.serialNumber = i.serialNumber) ∧
      (serialInNotChanged upd i.serialNumber ↔
        ∃ d ∈ stored, d.serialNumber = i.serialNumber ∧
          driveChanged d i = false) ∧
      (serialInUpdated upd i ↔
        ∃ d ∈ stored, d.serialNumber = i.serialNumber ∧
          driveChanged d i = true) ∧
      ((serialInCreated upd i.serialNumber ∧
          ¬ serialInNotChanged upd i.serialNumber ∧ ¬ serialInUpdated upd i) ∨
       (¬ serialInCreated upd i.serialNumber ∧
          serialInNotChanged upd i.serialNumber ∧ ¬ serialInUpdated upd i) ∨
       (¬ serialInCreated upd i.serialNumber ∧
          ¬ serialInNotChanged upd i.serialNumber ∧ serialInUpdated upd i)) := by
  have hc := created_char stored inventory fresh i hi hser hinv
  have hn := notChanged_char stored inventory fresh i hi hser hinv hsto
  have hu := updated_char stored inventory fresh i hi hser hinv hsto
  refine ⟨_, _, rfl, hc, hn, hu, ?_⟩
  by_cases hA : ∀ d ∈ stored, ¬ d.serialNumber = i.serialNumber
  · left
    refine ⟨hc.mpr hA, ?_, ?_⟩
    · intro hB
      obtain ⟨d, hd, hds, _⟩ := hn.mp hB
      exact hA d hd hds
    · intro hC
      obtain ⟨d, hd, hds, _⟩ := hu.mp hC
      exact hA d hd hds
  · push_neg at hA
    obtain ⟨d, hd, hds⟩ := hA
    by_cases hch : driveChanged d i = true
    · right
      right
      refine ⟨?_, ?_, hu.mpr ⟨d, hd, hds, hch⟩⟩
      · intro hA'
        exact (hc.mp hA') d hd hds
      · intro hB
        obtain ⟨d', hd', hds', hch'⟩ := hn.mp hB
        have hdd : d' = d :=
          List.inj_on_of_nodup_map hsto hd' hd (hds'.trans hds.symm)
        rw [hdd, hch] at hch'
        cases hch'
    · right
      left
      have hchf : driveChanged d i = false := by
        simpa using hch
      refine ⟨?_, hn.mpr ⟨d, hd, hds, hchf⟩, ?_⟩
      · intro hA'
        exact (hc.mp hA') d hd hds
      · intro hC
        obtain ⟨d', hd', hds', hchu⟩ := hu.mp hC
        have hdd : d' = d :=
          List.inj_on_of_nodup_map hsto hd' hd (hds'.trans hds.symm)
        rw [hdd, hchf] at hchu
        cases hchu

/-- Witness for C4: one brand-new inventory item against an empty store
lands in Created. -/
theorem updateDrivesCRs_c4_witness :
    ∃ upd newStored,
      updateDrivesCRs false (fun _ => false) (fun _ => false) (fun _ => "u-1")
        []
        [⟨"uuid-1", "sn-1", 500, "node-1", "HDD", apiV1.DriveStatusOnline,
          apiV1.HealthGood, "/dev/sda", false, true, ""⟩] =
        Except.ok (upd, newStored) ∧
      serialInCreated upd "sn-1" := by
  obtain ⟨upd, ns, heq, h1, _, _, _⟩ :=
    updateDrivesCRs_c4 (fun _ => false) (fun _ => false) (fun _ => "u-1")
      []
      [⟨"uuid-1", "sn-1", 500, "node-1", "HDD", apiV1.DriveStatusOnline,
        apiV1.HealthGood, "/dev/sda", false, true, ""⟩]
      ⟨"uuid-1", "sn-1", 500, "node-1", "HDD", apiV1.DriveStatusOnline,
        apiV1.HealthGood, "/dev/sda", false, true, ""⟩
      (by simp) (by decide) (by simp [inventorySerials]) (by simp [inventorySerials])
  exact ⟨upd, ns, heq, h1.mpr (by simp)⟩

/-- Refreshing the AC at a location makes every AC at that location carry
the refreshed size, and one such record exists. -/
theorem upsertAC_at (acs : List AvailableCapacity) (nodeId loc : String)
    (size : Int) :
    (∃ ac ∈ upsertAC acs nodeId loc size, ac.location = loc ∧ ac.size = size) ∧
    (∀ ac ∈ upsertAC acs nodeId loc size, ac.location = loc → ac.size = size) := by
  unfold upsertAC
  by_cases hx : acs.any (fun ac => ac.location == loc) = true
  · rw [if_pos hx]
    constructor
    · obtain ⟨a, ha, hal⟩ := List.any_eq_true.mp hx
      refine ⟨{ a with size := size }, ?_, by simpa using hal, rfl⟩
      refine List.mem_map.mpr ⟨a, ha, ?_⟩
      show (if (a.location == loc) = true then
        ({ a with size := size } : AvailableCapacity) else a) = { a with size := size }
      rw [if_pos hal]
    · intro ac hac hacl
      obtain ⟨a, _, he⟩ := List.mem_map.mp hac
      by_cases hc : (a.location == loc) = true
      · rw [if_pos hc] at he
        rw [← he]
      · rw [if_neg hc] at he
        subst he
        exact absurd (by simpa using hacl) hc
  · rw [if_neg hx]
    constructor
    · exact ⟨⟨nodeId, "SYSLVG", loc, size⟩,
        List.mem_append_right _ (by simp), rfl, rfl⟩
    · intro ac hac hacl
      rcases List.mem_append.mp hac with h1 | h2
      · exact absurd (List.any_eq_true.mpr ⟨ac, h1, by simpa using hacl⟩) hx
      · have : ac = ⟨nodeId, "SYSLVG", loc, size⟩ := by
          simpa using h2
        rw [this]

/-- One discovery run on a state whose single LVG record already
references the candidate UUID only refreshes the AC. -/
theorem discoverLVG_existing_run (ops : LvmOps) (nodeId uuid : String)
    (st : ClusterState) (g : LogicalVolumeGroup) (free : Int)
    (hlvgs : st.lvgs = [g])
    (hloc : g.locations.contains uuid = true)
    (hfree : ops.vgFreeSpace g.name = Except.ok free) :
    discoverLVGOnSystemDrive ops nodeId [uuid] st =
      ({ st with acs := upsertAC st.acs nodeId g.name free }, none) := by
  have h1 : discoverLVGForDrive ops nodeId st uuid =
      ({ st with acs := upsertAC st.acs nodeId g.name free }, none) := by
    unfold discoverLVGForDrive
    rw [hlvgs]
    simp only [List.find?_cons, hloc]
    rw [hfree]
  simp only [discoverLVGOnSystemDrive, h1]

/-- C8: running system-LVG discovery on a system drive whose LVG record
already exists leaves that record as the only LVG (same Spec), refreshes
its AvailableCapacity to the group's current free space, reports no
error, and running it a second time is idempotent for LVG identity. -/
theorem discoverLVGOnSystemDrive_c8 (ops : LvmOps) (nodeId uuid : String)
    (st : ClusterState) (g : LogicalVolumeGroup) (free : Int)
    (hlvgs : st.lvgs = [g])
    (hloc : g.locations.contains uuid = true)
    (hfree : ops.vgFreeSpace g.name = Except.ok free) :
    (discoverLVGOnSystemDrive ops nodeId [uuid] st).2 = none ∧
    (discoverLVGOnSystemDrive ops nodeId [uuid] st).1.lvgs = [g] ∧
    (∃ ac ∈ (discoverLVGOnSystemDrive ops nodeId [uuid] st).1.acs,
      ac.location = g.name ∧ ac.size = free) ∧
    (∀ ac ∈ (discoverLVGOnSystemDrive ops nodeId [uuid] st).1.acs,
      ac.location = g.name → ac.size = free) ∧
    (discoverLVGOnSystemDrive ops nodeId [uuid]
      (discoverLVGOnSystemDrive ops nodeId [uuid] st).1).1.lvgs = [g] := by
  have h1 := discoverLVG_existing_run ops nodeId uuid st g free hlvgs hloc hfree
  have hup := upsertAC_at st.acs nodeId g.name free
  have h2 := discoverLVG_existing_run ops nodeId uuid
    { st with acs := upsertAC st.acs nodeId g.name free } g free hlvgs hloc hfree
  rw [h1]
  exact ⟨rfl, hlvgs, hup.1, hup.2, by rw [h2]; exact hlvgs⟩

/-- Witness for C8 at a concrete already-discovered system LVG. -/
theorem discoverLVGOnSystemDrive_c8_witness :
    (discoverLVGOnSystemDrive
      ⟨[], fun _ => Except.error "", fun _ => Except.ok 2048, fun _ => Except.ok []⟩
      "node-1" ["some-uuid"]
      ⟨[], [⟨"some-name", "node-1", ["some-uuid"], 0, "", "", []⟩], [], []⟩).1.lvgs =
      [⟨"some-name", "node-1", ["some-uuid"], 0, "", "", []⟩] := by
  have h := discoverLVGOnSystemDrive_c8
    ⟨[], fun _ => Except.error "", fun _ => Except.ok 2048, fun _ => Except.ok []⟩
    "node-1" "some-uuid"
    ⟨[], [⟨"some-name", "node-1", ["some-uuid"], 0, "", "", []⟩], [], []⟩
    ⟨"some-name", "node-1", ["some-uuid"], 0, "", "", []⟩ 2048
    rfl (by decide) rfl
  exact h.2.1

/-- C9: when enumerating the logical volumes of the system volume group
fails during discovery of a not-yet-recorded system LVG, the pass returns
an error whose message says the LVs could not be determined, and no LVG
record is persisted: the store holds zero LVG records afterwards. -/
theorem discoverLVGOnSystemDrive_c9 (ops : LvmOps) (nodeId uuid : String)
    (st : ClusterState) (d : Drive) (pv vg e : String)
    (hlvgs : st.lvgs = [])
    (hdrive : st.drives.find? (fun x => x.uuid == uuid) = some d)
    (hpv : ops.getAllPVs.find? (fun p => strStarts d.path p) = some pv)
    (hvg : ops.vgNameByPV pv = Except.ok vg)
    (hlvs : ops.lvsInVG vg = Except.error e) :
    discoverLVGOnSystemDrive ops nodeId [uuid] st =
      (st, some ("unable to determine LVs in system VG: " ++ e)) ∧
    (discoverLVGOnSystemDrive ops nodeId [uuid] st).1.lvgs = [] := by
  have h1 : discoverLVGForDrive ops nodeId st uuid =
      (st, some ("unable to determine LVs in system VG: " ++ e)) := by
    unfold discoverLVGForDrive
    rw [hlvgs]
    simp only [List.find?_nil, hdrive, hpv, hvg, hlvs]
  constructor
  · simp only [discoverLVGOnSystemDrive, h1]
  · simp only [discoverLVGOnSystemDrive, h1]
    exact hlvgs

/-- Witness for C9: a concrete system drive whose LV enumeration fails. -/
theorem discoverLVGOnSystemDrive_c9_witness :
    discoverLVGOnSystemDrive
      ⟨["/dev/sda1"], fun _ => Except.ok "root-vg", fun _ => Except.ok 1024,
        fun _ => Except.error "lvs failed"⟩
      "node-1" ["uuid-1"]
      ⟨[], [], [],
        [⟨"uuid-1", "sn-1", 500, "node-1", "HDD", apiV1.DriveStatusOnline,
          apiV1.HealthGood, "/dev/sda", true, false, ""⟩]⟩ =
      (⟨[], [], [],
        [⟨"uuid-1", "sn-1", 500, "node-1", "HDD", apiV1.DriveStatusOnline,
          apiV1.HealthGood, "/dev/sda", true, false, ""⟩]⟩,
        some ("unable to determine LVs in system VG: " ++ "lvs failed")) := by
  exact (discoverLVGOnSystemDrive_c9
    ⟨["/dev/sda1"], fun _ => Except.ok "root-vg", fun _ => Except.ok 1024,
      fun _ => Except.error "lvs failed"⟩
    "node-1" "uuid-1"
    ⟨[], [], [],
      [⟨"uuid-1", "sn-1", 500, "node-1", "HDD", apiV1.DriveStatusOnline,
        apiV1.HealthGood, "/dev/sda", true, false, ""⟩]⟩
    ⟨"uuid-1", "sn-1", 500, "node-1", "HDD", apiV1.DriveStatusOnline,
      apiV1.HealthGood, "/dev/sda", true, false, ""⟩
    "/dev/sda1" "root-vg" "lvs failed"
    rfl (by decide) (by decide) rfl rfl).1

/-- The race invariant is preserved by a step of worker A. -/
theorem raceInv_stepA (s : RaceState) (h : raceInv s) :
    raceInv (stepRaceA s) := by
  obtain ⟨hpa, hpb, hda, hdb⟩ := h
  rcases s with ⟨⟨st0, v0⟩, p0, ta, tb⟩
  cases ta with
  | provision =>
    simp only [stepRaceA]
    refine ⟨fun _ => rfl, fun _ => rfl, fun e he => ?_, fun e he => ?_⟩
    · cases he
    · exact hdb e he
  | readRec =>
    simp only [stepRaceA]
    refine ⟨fun _ => ?_, fun hne => ?_, fun e he => ?_, fun e he => ?_⟩
    · exact hpa (by simp)
    · exact hpb hne
    · cases he
    · exact hdb e he
  | writeRec rv =>
    simp only [stepRaceA]
    by_cases hv : v0 = rv
    · rw [if_pos hv]
      refine ⟨fun _ => ?_, fun hne => ?_, fun e he => ?_, fun e he => ?_⟩
      · exact hpa (by simp)
      · exact hpb hne
      · cases he
        exact ⟨rfl, rfl⟩
      · exact ⟨(hdb e he).1, rfl⟩
    · rw [if_neg hv]
      refine ⟨fun hne => ?_, fun hne => ?_, fun e he => ?_, fun e he => ?_⟩
      · exact absurd rfl hne
      · exact hpb hne
      · cases he
      · exact hdb e he
  | done ea =>
    simp only [stepRaceA]
    refine ⟨fun _ => ?_, fun hne => ?_, fun e he => ?_, fun e he => ?_⟩
    · exact hpa (by simp)
    · exact hpb hne
    · exact hda e he
    · exact hdb e he

/-- The race invariant is preserved by a step of worker B. -/
theorem raceInv_stepB (s : RaceState) (h : raceInv s) :
    raceInv (stepRaceB s) := by
  obtain ⟨hpa, hpb, hda, hdb⟩ := h
  rcases s with ⟨⟨st0, v0⟩, p0, ta, tb⟩
  cases tb with
  | provision =>
    simp only [stepRaceB]
    refine ⟨fun _ => rfl, fun _ => rfl, fun e he => ?_, fun e he => ?_⟩
    · exact hda e he
    · cases he
  | readRec =>
    simp only [stepRaceB]
    refine ⟨fun hne => ?_, fun _ => ?_, fun e he => ?_, fun e he => ?_⟩
    · exact hpa hne
    · exact hpb (by simp)
    · exact hda e he
    · cases he
  | writeRec rv =>
    simp only [stepRaceB]
    by_cases hv : v0 = rv
    · rw [if_pos hv]
      refine ⟨fun hne => ?_, fun _ => ?_, fun e he => ?_, fun e he => ?_⟩
      · exact hpa hne
      · exact hpb (by simp)
      · exact ⟨(hda e he).1, rfl⟩
      · cases he
        exact ⟨rfl, rfl⟩
    · rw [if_neg hv]
      refine ⟨fun hne => ?_, fun hne => ?_, fun e he => ?_, fun e he => ?_⟩
      · exact hpa hne
      · exact absurd rfl hne
      · exact hda e he
      · cases he
  | done eb =>
    simp only [stepRaceB]
    refine ⟨fun hne => ?_, fun _ => ?_, fun e he => ?_, fun e he => ?_⟩
    · exact hpa hne
    · exact hpb (by simp)
    · exact hda e he
    · exact hdb e he

/-- The race invariant is preserved by every scheduler step. -/
theorem raceInv_step (s : RaceState) (who : Bool) (h : raceInv s) :
    raceInv (stepRace s who) := by
  cases who
  · exact raceInv_stepB s h
  · exact raceInv_stepA s h

/-- The race invariant holds along any schedule. -/
theorem raceInv_run (sched : List Bool) (s : RaceState) (h : raceInv s) :
    raceInv (runRace sched s) := by
  induction sched generalizing s with
  | nil => exact h
  | cons w rest ih => exact ih _ (raceInv_step s w h)

/-- Four uninterrupted steps of worker A finish it, without touching
worker B's program counter. -/
theorem runA4_done (s : RaceState) :
    isDoneB ((runRace [true, true, true, true] s).thA) = true ∧
    (runRace [true, true, true, true] s).thB = s.thB := by
  rcases s with ⟨⟨st0, v0⟩, p0, ta, tb⟩
  cases ta with
  | provision => simp [runRace, stepRace, stepRaceA, stepRaceB, isDoneB]
  | readRec => simp [runRace, stepRace, stepRaceA, stepRaceB, isDoneB]
  | writeRec rv =>
    by_cases hv : v0 = rv
    · simp [runRace, stepRace, stepRaceA, stepRaceB, isDoneB, hv]
    · simp [runRace, stepRace, stepRaceA, stepRaceB, isDoneB, hv]
  | done e => simp [runRace, stepRace, stepRaceA, stepRaceB, isDoneB]

/-- Four uninterrupted steps of worker B finish it, without touching
worker A's program counter. -/
theorem runB4_done (s : RaceState) :
    isDoneB ((runRace [false, false, false, false] s).thB) = true ∧
    (runRace [false, false, false, false] s).thA = s.thA := by
  rcases s with ⟨⟨st0, v0⟩, p0, ta, tb⟩
  cases tb with
  | provision => simp [runRace, stepRace, stepRaceA, stepRaceB, isDoneB]
  | readRec => simp [runRace, stepRace, stepRaceA, stepRaceB, isDoneB]
  | writeRec rv =>
    by_cases hv : v0 = rv
    · simp [runRace, stepRace, stepRaceA, stepRaceB, isDoneB, hv]
    · simp [runRace, stepRace, stepRaceA, stepRaceB, isDoneB, hv]
  | done e => simp [runRace, stepRace, stepRaceA, stepRaceB, isDoneB]

/-- A finished worker is a done with some returned error value. -/
theorem isDoneB_elim (pc : ReconcilePC) (h : isDoneB pc = true) :
    ∃ e, pc = ReconcilePC.done e := by
  cases pc <;> simp [isDoneB] at h ⊢

/-- C1: for every interleaving of two concurrent Reconcile calls on the
same Creating volume whose provisioner succeeds, once each worker gets a
fair tail of steps both have returned without error, the stored CSIStatus
has converged to exactly Created (no lost update can leave it otherwise),
and the provisioning side effect is in place exactly once (the idempotent
flag is set). -/
theorem Reconcile_c1 (sched : List Bool) :
    (runRace (sched ++ finishSched) initRace).thA = ReconcilePC.done none ∧
    (runRace (sched ++ finishSched) initRace).thB = ReconcilePC.done none ∧
    (runRace (sched ++ finishSched) initRace).vol.csiStatus = apiV1.Created ∧
    (runRace (sched ++ finishSched) initRace).prepared = true := by
  have hinit : raceInv initRace := by
    refine ⟨fun h => absurd rfl h, fun h => absurd rfl h, ?_, ?_⟩ <;>
      intro e he <;> cases he
  have hsplit : runRace (sched ++ finishSched) initRace =
      runRace [false, false, false, false]
        (runRace [true, true, true, true] (runRace sched initRace)) := by
    unfold runRace finishSched
    rw [List.foldl_append]
    rw [show ([true, true, true, true, false, false, false, false] : List Bool) =
      [true, true, true, true] ++ [false, false, false, false] from rfl]
    rw [List.foldl_append]
  set s1 := runRace sched initRace with hs1
  set s2 := runRace [true, true, true, true] s1 with hs2
  set s3 := runRace [false, false, false, false] s2 with hs3
  have hA := runA4_done s1
  have hB := runB4_done s2
  have hinv3 : raceInv s3 := by
    rw [hs3, hs2, hs1]
    exact raceInv_run _ _ (raceInv_run _ _ (raceInv_run _ _ hinit))
  have hAdone : isDoneB s3.thA = true := by
    rw [hB.2]
    exact hA.1
  obtain ⟨ea, hea⟩ := isDoneB_elim s3.thA hAdone
  obtain ⟨eb, heb⟩ := isDoneB_elim s3.thB hB.1
  obtain ⟨hpa, _, hda, hdb⟩ := hinv3
  obtain ⟨hea0, hstat⟩ := hda ea hea
  obtain ⟨heb0, _⟩ := hdb eb heb
  have hprep : s3.prepared = true := by
    refine hpa ?_
    rw [hea]
    intro hcontra
    cases hcontra
  rw [hsplit]
  refine ⟨?_, ?_, hstat, hprep⟩
  · rw [hea, hea0]
  · rw [heb, heb0]

end CSI
